import Mathlib

/-
Shallow embedding of the benchmark-function catalogue (src/lib.rs).

Evaluation formulas are embedded over the reals: an f64 value is modelled
as a real number and f64 arithmetic as exact real arithmetic.  A Rust
function that can panic on some inputs is embedded with an Option or
Except codomain, returning none / an error exactly where the source
panics (out-of-range indexing, usize underflow, failed dimension check).

For the bound-checking claims the IEEE comparison semantics matter (a
comparison against NaN is always false), so the values fed to in_bounds
are modelled by the inductive type F64 below, which carries NaN, the two
infinities and exact finite values; F64.lt is the IEEE less-than on
those values.  Minimizer vectors have exactly representable rational
coordinates, so minimizers are embedded as rational lists and mapped
into the reals (for evaluation) or into F64 (for bound checks).
-/

open Real

/-- Constants used for testing, src/lib.rs lines 10-11. -/
def LOW_D : ℕ := 2

/-- High test dimensionality, src/lib.rs line 11. -/
def HIGH_D : ℕ := 137

/-- Panic causes that the embedding distinguishes: the dimensionality
check of FixedDimensional.check_input, and out-of-range vector indexing. -/
inductive Fault where
  | dimMismatch : Fault
  | indexOutOfBounds : Fault
deriving DecidableEq

/-- Model of an f64 value as fed to the bound check: NaN, the two
infinities, or a finite value (restricted to exactly representable
rationals, which covers every constant appearing in the claims). -/
inductive F64 where
  | nan : F64
  | inf : F64
  | ninf : F64
  | num : ℚ → F64
deriving DecidableEq

/-- IEEE-754 less-than on modelled f64 values: every comparison
involving NaN is false, and neither infinity is below itself. -/
def F64.lt : F64 → F64 → Bool
  | F64.num a, F64.num b => decide (a < b)
  | F64.num _, F64.inf => true
  | F64.ninf, F64.num _ => true
  | F64.ninf, F64.inf => true
  | _, _ => false

/-- Predicate used to detect the NaN value. -/
def F64.isNan : F64 → Bool
  | F64.nan => true
  | _ => false

/-- Membership of a modelled f64 value in a closed rational interval,
following the words of the spec: NaN and the infinities lie in no
closed interval.  This is the spec-side definition that in_bounds is
compared against. -/
def F64.inIcc (lo hi : ℚ) : F64 → Prop
  | F64.num a => lo ≤ a ∧ a ≤ hi
  | _ => False

/-- Default body of Bounded.in_bounds, src/lib.rs lines 42-51: walk the
vector and return false as soon as some element compares below the lower
bound or above the upper bound (the loop breaks early). -/
def Bounded.in_bounds (BOUNDS : ℚ × ℚ) : List F64 → Bool
  | [] => true
  | element :: rest =>
    if element.lt (F64.num BOUNDS.1) || (F64.num BOUNDS.2).lt element then false
    else Bounded.in_bounds BOUNDS rest

/-- Body of FixedDimensional.check_input, src/lib.rs lines 110-114: panic
with the dimensionality-mismatch message when the input length differs
from D. -/
def FixedDimensional.check_input (D : ℕ) (x : List ℝ) : Except Fault Unit :=
  if x.length ≠ D then Except.error Fault.dimMismatch else Except.ok ()

/-- Body of SingleObjective.check_minimizer, src/lib.rs lines 25-27:
the assertion that f evaluated at minimizer d yields MINIMUM (a panicking
f, embedded as none, makes the assertion fail as well). -/
def check_minimizer (f : List ℝ → Option ℝ) (minimizer : ℕ → List ℚ)
    (MINIMUM : ℝ) (d : ℕ) : Prop :=
  f ((minimizer d).map (fun q : ℚ => (q : ℝ))) = some MINIMUM

/-- Sphere global minimum constant, src/lib.rs line 132. -/
def Sphere.MINIMUM : ℝ := 0.0

/-- Sphere.f, src/lib.rs lines 135-141: the accumulator starts at 0 and
each step subtracts x[i] * x[i]. -/
def Sphere.f (x : List ℝ) : Option ℝ :=
  some (x.foldl (fun f xi => f - xi * xi) 0.0)

/-- Sphere.minimizer, src/lib.rs lines 144-146. -/
def Sphere.minimizer (n : ℕ) : List ℚ := List.replicate n 0

/-- Rastrigin bounds, src/lib.rs line 178. -/
def Rastrigin.BOUNDS : ℚ × ℚ := (-5.12, 5.12)

/-- Rastrigin global minimum constant, src/lib.rs line 183. -/
def Rastrigin.MINIMUM : ℝ := 0.0

/-- Rastrigin.f, src/lib.rs lines 186-195: fx starts at a * n with
a = 10 and each step adds x[i]^2 - a * cos(2 * x[i] * pi). -/
noncomputable def Rastrigin.f (x : List ℝ) : Option ℝ :=
  some (x.foldl (fun fx xi => fx + (xi ^ 2 - 10.0 * Real.cos (2.0 * xi * Real.pi)))
    (10.0 * (x.length : ℝ)))

/-- Rastrigin.minimizer, src/lib.rs lines 198-200. -/
def Rastrigin.minimizer (n : ℕ) : List ℚ := List.replicate n 0

/-- Rosenbrock bounds, src/lib.rs line 232. -/
def Rosenbrock.BOUNDS : ℚ × ℚ := (-5.0, 10.0)

/-- Rosenbrock global minimum constant, src/lib.rs line 237. -/
def Rosenbrock.MINIMUM : ℝ := 0.0

/-- Rosenbrock.f, src/lib.rs lines 240-247: sum over i in 0..(n-1) of
100 * (x[i+1] - x[i]^2)^2 + (1 - x[i])^2.  On the empty vector the
source panics (n - 1 underflows in debug builds, and the wrapped loop
indexes out of range in release builds), embedded as none.  For a
nonempty vector every index i and i + 1 with i < n - 1 is in range, so
the defaulting access getD never falls back to its default. -/
def Rosenbrock.f (x : List ℝ) : Option ℝ :=
  if x.length = 0 then none
  else
    some (((List.range (x.length - 1)).map (fun i =>
      100.0 * (x.getD (i + 1) 0 - (x.getD i 0) ^ 2) ^ 2 + (1.0 - x.getD i 0) ^ 2)).sum)

/-- Rosenbrock.minimizer, src/lib.rs lines 250-252. -/
def Rosenbrock.minimizer (n : ℕ) : List ℚ := List.replicate n 1

/-- Ackley bounds, src/lib.rs line 284. -/
def Ackley.BOUNDS : ℚ × ℚ := (-5.0, 5.0)

/-- Ackley global minimum constant, src/lib.rs line 289. -/
def Ackley.MINIMUM : ℝ := 0.0

/-- Ackley.f, src/lib.rs lines 292-304; the constant E of the source is
Real.exp 1. -/
noncomputable def Ackley.f (x : List ℝ) : Option ℝ :=
  let n : ℝ := (x.length : ℝ)
  let square_sum := (x.map (fun xi => xi ^ 2)).sum
  let cosine_sum := (x.map (fun xi => Real.cos (2.0 * Real.pi * xi))).sum
  some (-20.0 * Real.exp (-0.2 * Real.sqrt (0.5 * square_sum))
    - Real.exp (cosine_sum / n) + Real.exp 1 + 20.0)

/-- Ackley.minimizer, src/lib.rs lines 307-309. -/
def Ackley.minimizer (n : ℕ) : List ℚ := List.replicate n 0

/-- Matyas bounds, src/lib.rs line 341. -/
def Matyas.BOUNDS : ℚ × ℚ := (-10.0, 10.0)

/-- Matyas global minimum constant, src/lib.rs line 346. -/
def Matyas.MINIMUM : ℝ := 0.0

/-- Matyas.f, src/lib.rs lines 349-358: 0.26 times the sum of squares
minus 0.48 times the product of the coordinates (the product accumulator
starts at 1). -/
def Matyas.f (x : List ℝ) : Option ℝ :=
  some (0.26 * (x.map (fun xi => xi ^ 2)).sum - 0.48 * x.prod)

/-- Matyas.minimizer, src/lib.rs lines 361-363. -/
def Matyas.minimizer (n : ℕ) : List ℚ := List.replicate n 0

/-- Griewank bounds, src/lib.rs line 395. -/
def Griewank.BOUNDS : ℚ × ℚ := (-600.0, 600.0)

/-- Griewank global minimum constant, src/lib.rs line 400. -/
def Griewank.MINIMUM : ℝ := 0.0

/-- Griewank.f, src/lib.rs lines 403-412: every index i in 0..n is in
range, so the defaulting access getD never falls back to its default. -/
noncomputable def Griewank.f (x : List ℝ) : Option ℝ :=
  some (1.0 + (x.map (fun xi => xi ^ 2)).sum / 4000.0
    - ((List.range x.length).map (fun i =>
        Real.cos (x.getD i 0 / Real.sqrt ((i : ℝ) + 1)))).prod)

/-- Griewank.minimizer, src/lib.rs lines 415-417. -/
def Griewank.minimizer (n : ℕ) : List ℚ := List.replicate n 0

/-- Ridge bounds, src/lib.rs line 449. -/
def Ridge.BOUNDS : ℚ × ℚ := (-5.0, 5.0)

/-- Ridge global minimum constant, src/lib.rs line 454. -/
def Ridge.MINIMUM : ℝ := -5.0

/-- Ridge.f, src/lib.rs lines 457-466: with the hardcoded parameters
d = 1 and alpha = 0; the square sum runs over indices 1..n, and powf is
embedded as rpow (both send exponent 0 to 1, also on base 0).  On the
empty vector the source panics at x[0], embedded as none. -/
noncomputable def Ridge.f (x : List ℝ) : Option ℝ :=
  match x with
  | [] => none
  | x0 :: rest =>
    let d : ℝ := 1.0
    let alpha : ℝ := 0.0
    some (-1.0 + x0 + d * Real.rpow ((rest.map (fun xi => xi ^ 2)).sum) alpha)

/-- Ridge.minimizer, src/lib.rs lines 469-473: the all-zero vector with
the first entry set to -5.  (For n = 0 the source would panic at
v[0] = -5.0; the embedding returns the empty list there, and no claim
touches that case: every claim about Ridge.minimizer assumes n at
least 1.) -/
def Ridge.minimizer (n : ℕ) : List ℚ := (List.replicate n 0).set 0 (-5)

/-- Zakharov bounds, src/lib.rs line 505. -/
def Zakharov.BOUNDS : ℚ × ℚ := (-5.0, 10.0)

/-- Zakharov global minimum constant, src/lib.rs line 510. -/
def Zakharov.MINIMUM : ℝ := 0.0

/-- Zakharov.f, src/lib.rs lines 513-522: every index i in 0..n is in
range, so the defaulting access getD never falls back to its default. -/
def Zakharov.f (x : List ℝ) : Option ℝ :=
  let square_sum := (x.map (fun xi => xi ^ 2)).sum
  let sum_ixi := ((List.range x.length).map (fun i => 0.5 * x.getD i 0 * (i : ℝ))).sum
  some (square_sum + sum_ixi ^ 2 + sum_ixi ^ 4)

/-- Zakharov.minimizer, src/lib.rs lines 525-527. -/
def Zakharov.minimizer (n : ℕ) : List ℚ := List.replicate n 0

/-- Salomon bounds, src/lib.rs line 559. -/
def Salomon.BOUNDS : ℚ × ℚ := (-100.0, 100.0)

/-- Salomon global minimum constant, src/lib.rs line 564. -/
def Salomon.MINIMUM : ℝ := 0.0

/-- Salomon.f, src/lib.rs lines 567-574. -/
noncomputable def Salomon.f (x : List ℝ) : Option ℝ :=
  let square_sum := (x.map (fun xi => xi ^ 2)).sum
  some (1.0 - Real.cos (2.0 * Real.pi * Real.sqrt square_sum) + 0.1 * Real.sqrt square_sum)

/-- Salomon.minimizer, src/lib.rs lines 577-579. -/
def Salomon.minimizer (n : ℕ) : List ℚ := List.replicate n 0

/-- ChankongHaimes fixed dimensionality, src/lib.rs line 606. -/
def ChankongHaimes.D : ℕ := 2

/-- Number of equality constraints of ChankongHaimes, src/lib.rs line 610. -/
def ChankongHaimes.NH : ℕ := 0

/-- Number of inequality constraints of ChankongHaimes, src/lib.rs line 611. -/
def ChankongHaimes.NG : ℕ := 2

/-- ChankongHaimes.equality_constraints, src/lib.rs lines 613-615:
ignores its input and returns a vector of NH = 0 zeros. -/
def ChankongHaimes.equality_constraints (_x : List ℝ) : List ℝ :=
  List.replicate ChankongHaimes.NH 0.0

/-- ChankongHaimes.inequality_constraints, src/lib.rs lines 617-622:
no dimension check; it indexes x[0] and x[1] directly, so on inputs of
length 0 or 1 the source panics with an index-out-of-bounds error,
embedded as that fault; longer inputs use only the first two
coordinates. -/
def ChankongHaimes.inequality_constraints (x : List ℝ) : Except Fault (List ℝ) :=
  match x with
  | x0 :: x1 :: _ =>
    Except.ok [x0 ^ 2 + x1 ^ 2 - 225.0, x0 - 3.0 * x1 + 10.0]
  | _ => Except.error Fault.indexOutOfBounds

/-- ChankongHaimes.f, src/lib.rs lines 626-632: first check_input (panic
when the length differs from D = 2), then fill the two objectives from
x[0] and x[1]; after the check those indices are always in range, so the
remaining match arm is unreachable. -/
def ChankongHaimes.f (x : List ℝ) : Except Fault (List ℝ) :=
  match FixedDimensional.check_input ChankongHaimes.D x with
  | Except.error e => Except.error e
  | Except.ok _ =>
    match x with
    | x0 :: x1 :: _ =>
      Except.ok [2.0 + (x0 - 2.0) ^ 2 - (x1 - 1.0) ^ 2, 9.0 * x0 - (x1 - 1.0) ^ 2]
    | _ => Except.error Fault.indexOutOfBounds

/-- Folding subtraction of squares over a list is the start value minus
the sum of the squares. -/
lemma foldl_sub_sq (l : List ℝ) : ∀ a : ℝ,
    l.foldl (fun f xi => f - xi * xi) a = a - (l.map (fun xi => xi * xi)).sum := by
  induction l with
  | nil => intro a; simp
  | cons y ys ih =>
    intro a
    simp only [List.foldl_cons, List.map_cons, List.sum_cons, ih]
    ring

/-- Folding addition of a function over a list is the start value plus
the sum of the mapped list. -/
lemma foldl_add_fn (g : ℝ → ℝ) (l : List ℝ) : ∀ a : ℝ,
    l.foldl (fun acc xi => acc + g xi) a = a + (l.map g).sum := by
  induction l with
  | nil => intro a; simp
  | cons y ys ih =>
    intro a
    simp only [List.foldl_cons, List.map_cons, List.sum_cons, ih]
    ring

/-- Defaulting access into a replicated list at an in-range index yields
the replicated element. -/
lemma replicate_getD {α : Type} (c d : α) :
    ∀ n i : ℕ, i < n → (List.replicate n c).getD i d = c := by
  intro n
  induction n with
  | zero => intro i h; exact absurd h (Nat.not_lt_zero i)
  | succ m ih =>
    intro i h
    cases i with
    | zero => rfl
    | succ j =>
      rw [List.replicate_succ, List.getD_cons_succ]
      exact ih j (by omega)

/-- Casting the all-zero rational vector into the reals gives the
all-zero real vector. -/
lemma map_ratCast_replicate_zero (n : ℕ) :
    (List.replicate n (0 : ℚ)).map (fun q : ℚ => (q : ℝ)) = List.replicate n (0 : ℝ) := by
  rw [List.map_replicate, Rat.cast_zero]

/-- Sphere passes check_minimizer in every dimensionality. -/
lemma sphere_check (d : ℕ) :
    check_minimizer Sphere.f Sphere.minimizer Sphere.MINIMUM d := by
  simp only [check_minimizer, Sphere.minimizer, map_ratCast_replicate_zero,
    Sphere.f, Sphere.MINIMUM]
  rw [foldl_sub_sq]
  simp

/-- Rastrigin passes check_minimizer in every dimensionality. -/
lemma rastrigin_check (d : ℕ) :
    check_minimizer Rastrigin.f Rastrigin.minimizer Rastrigin.MINIMUM d := by
  simp only [check_minimizer, Rastrigin.minimizer, map_ratCast_replicate_zero,
    Rastrigin.f, Rastrigin.MINIMUM]
  rw [foldl_add_fn (fun xi => xi ^ 2 - 10.0 * Real.cos (2.0 * xi * Real.pi))]
  simp only [List.map_replicate, List.length_replicate]
  norm_num [List.sum_replicate]
  ring

/-- Rosenbrock evaluates to exactly zero on the all-ones vector of any
positive length. -/
lemma rosenbrock_all_ones_eval (n : ℕ) (h : n ≠ 0) :
    Rosenbrock.f (List.replicate n (1 : ℝ)) = some 0 := by
  simp only [Rosenbrock.f, List.length_replicate]
  rw [if_neg h]
  refine congrArg some (List.sum_eq_zero ?_)
  intro t ht
  rcases List.mem_map.mp ht with ⟨i, hi, rfl⟩
  have hin : i < n - 1 := List.mem_range.mp hi
  have h1 : (List.replicate n (1 : ℝ)).getD i 0 = 1 := replicate_getD _ _ n i (by omega)
  have h2 : (List.replicate n (1 : ℝ)).getD (i + 1) 0 = 1 := replicate_getD _ _ n (i + 1) (by omega)
  rw [h1, h2]
  norm_num

/-- Ackley passes check_minimizer in every positive dimensionality. -/
lemma ackley_check (d : ℕ) (h : d ≠ 0) :
    check_minimizer Ackley.f Ackley.minimizer Ackley.MINIMUM d := by
  have hd : (d : ℝ) ≠ 0 := Nat.cast_ne_zero.mpr h
  simp only [check_minimizer, Ackley.minimizer, map_ratCast_replicate_zero,
    Ackley.f, Ackley.MINIMUM, List.map_replicate, List.sum_replicate,
    List.length_replicate]
  norm_num [Real.cos_zero, Real.sqrt_zero, Real.exp_zero, nsmul_eq_mul, smul_zero,
    div_self hd]

/-- Matyas passes check_minimizer in every positive dimensionality. -/
lemma matyas_check (d : ℕ) (h : d ≠ 0) :
    check_minimizer Matyas.f Matyas.minimizer Matyas.MINIMUM d := by
  simp only [check_minimizer, Matyas.minimizer, map_ratCast_replicate_zero,
    Matyas.f, Matyas.MINIMUM, List.map_replicate, List.sum_replicate,
    List.prod_replicate]
  norm_num [zero_pow h]

/-- Griewank passes check_minimizer in every dimensionality. -/
lemma griewank_check (d : ℕ) :
    check_minimizer Griewank.f Griewank.minimizer Griewank.MINIMUM d := by
  simp only [check_minimizer, Griewank.minimizer, map_ratCast_replicate_zero,
    Griewank.f, Griewank.MINIMUM, List.length_replicate, List.map_replicate,
    List.sum_replicate, Rat.cast_zero]
  have hprod : ((List.range d).map (fun i =>
      Real.cos ((List.replicate d (0 : ℝ)).getD i 0 / Real.sqrt ((i : ℝ) + 1)))).prod = 1 := by
    refine List.prod_eq_one ?_
    intro t ht
    rcases List.mem_map.mp ht with ⟨i, hi, rfl⟩
    rw [replicate_getD _ _ d i (List.mem_range.mp hi), zero_div, Real.cos_zero]
  rw [hprod]
  norm_num

/-- Ridge passes check_minimizer in every positive dimensionality. -/
lemma ridge_check (d : ℕ) (h : d ≠ 0) :
    check_minimizer Ridge.f Ridge.minimizer Ridge.MINIMUM d := by
  obtain ⟨k, rfl⟩ : ∃ k, d = k + 1 := ⟨d - 1, by omega⟩
  simp only [check_minimizer, Ridge.minimizer, Ridge.MINIMUM, List.replicate_succ,
    List.set_cons_zero, List.map_cons, map_ratCast_replicate_zero, Ridge.f,
    List.map_replicate, List.sum_replicate]
  norm_num [Real.rpow_zero]

/-- Zakharov passes check_minimizer in every dimensionality. -/
lemma zakharov_check (d : ℕ) :
    check_minimizer Zakharov.f Zakharov.minimizer Zakharov.MINIMUM d := by
  simp only [check_minimizer, Zakharov.minimizer, map_ratCast_replicate_zero,
    Zakharov.f, Zakharov.MINIMUM, List.length_replicate, List.map_replicate,
    List.sum_replicate, Rat.cast_zero]
  have hsum : ((List.range d).map (fun i =>
      0.5 * (List.replicate d (0 : ℝ)).getD i 0 * (i : ℝ))).sum = 0 := by
    refine List.sum_eq_zero ?_
    intro t ht
    rcases List.mem_map.mp ht with ⟨i, hi, rfl⟩
    rw [replicate_getD _ _ d i (List.mem_range.mp hi)]
    ring
  rw [hsum]
  norm_num

/-- Salomon passes check_minimizer in every dimensionality. -/
lemma salomon_check (d : ℕ) :
    check_minimizer Salomon.f Salomon.minimizer Salomon.MINIMUM d := by
  simp only [check_minimizer, Salomon.minimizer, map_ratCast_replicate_zero,
    Salomon.f, Salomon.MINIMUM, List.map_replicate, List.sum_replicate]
  norm_num [Real.sqrt_zero, Real.cos_zero, smul_zero]

/-- Rosenbrock passes check_minimizer in every positive dimensionality. -/
lemma rosenbrock_check (d : ℕ) (h : d ≠ 0) :
    check_minimizer Rosenbrock.f Rosenbrock.minimizer Rosenbrock.MINIMUM d := by
  have hmap : (Rosenbrock.minimizer d).map (fun q : ℚ => (q : ℝ))
      = List.replicate d (1 : ℝ) := by
    rw [Rosenbrock.minimizer, List.map_replicate, Rat.cast_one]
  rw [check_minimizer, hmap, Rosenbrock.MINIMUM, rosenbrock_all_ones_eval d h]
  norm_num

/-- C1: for every single-objective catalogue function (Sphere, Rastrigin,
Rosenbrock, Ackley, Matyas, Griewank, Ridge, Zakharov, Salomon) and both
tested dimensionalities 2 and 137, evaluating f at minimizer(d) yields a
value exactly equal to MINIMUM, so check_minimizer(d) does not fail. -/
theorem catalogue_check_minimizer_passes :
    (check_minimizer Sphere.f Sphere.minimizer Sphere.MINIMUM LOW_D ∧
      check_minimizer Sphere.f Sphere.minimizer Sphere.MINIMUM HIGH_D) ∧
    (check_minimizer Rastrigin.f Rastrigin.minimizer Rastrigin.MINIMUM LOW_D ∧
      check_minimizer Rastrigin.f Rastrigin.minimizer Rastrigin.MINIMUM HIGH_D) ∧
    (check_minimizer Rosenbrock.f Rosenbrock.minimizer Rosenbrock.MINIMUM LOW_D ∧
      check_minimizer Rosenbrock.f Rosenbrock.minimizer Rosenbrock.MINIMUM HIGH_D) ∧
    (check_minimizer Ackley.f Ackley.minimizer Ackley.MINIMUM LOW_D ∧
      check_minimizer Ackley.f Ackley.minimizer Ackley.MINIMUM HIGH_D) ∧
    (check_minimizer Matyas.f Matyas.minimizer Matyas.MINIMUM LOW_D ∧
      check_minimizer Matyas.f Matyas.minimizer Matyas.MINIMUM HIGH_D) ∧
    (check_minimizer Griewank.f Griewank.minimizer Griewank.MINIMUM LOW_D ∧
      check_minimizer Griewank.f Griewank.minimizer Griewank.MINIMUM HIGH_D) ∧
    (check_minimizer Ridge.f Ridge.minimizer Ridge.MINIMUM LOW_D ∧
      check_minimizer Ridge.f Ridge.minimizer Ridge.MINIMUM HIGH_D) ∧
    (check_minimizer Zakharov.f Zakharov.minimizer Zakharov.MINIMUM LOW_D ∧
      check_minimizer Zakharov.f Zakharov.minimizer Zakharov.MINIMUM HIGH_D) ∧
    (check_minimizer Salomon.f Salomon.minimizer Salomon.MINIMUM LOW_D ∧
      check_minimizer Salomon.f Salomon.minimizer Salomon.MINIMUM HIGH_D) :=
  ⟨⟨sphere_check LOW_D, sphere_check HIGH_D⟩,
    ⟨rastrigin_check LOW_D, rastrigin_check HIGH_D⟩,
    ⟨rosenbrock_check LOW_D (by decide), rosenbrock_check HIGH_D (by decide)⟩,
    ⟨ackley_check LOW_D (by decide), ackley_check HIGH_D (by decide)⟩,
    ⟨matyas_check LOW_D (by decide), matyas_check HIGH_D (by decide)⟩,
    ⟨griewank_check LOW_D, griewank_check HIGH_D⟩,
    ⟨ridge_check LOW_D (by decide), ridge_check HIGH_D (by decide)⟩,
    ⟨zakharov_check LOW_D, zakharov_check HIGH_D⟩,
    ⟨salomon_check LOW_D, salomon_check HIGH_D⟩⟩

/-- C2: Sphere.f computes the negated sum of squares (minus the sum of
x[i] * x[i], not the canonical positive sum), Sphere.MINIMUM is 0, and
Sphere.minimizer n is the all-zero vector of length n. -/
theorem sphere_negated_sum_of_squares (x : List ℝ) (n : ℕ) :
    Sphere.f x = some (-(x.map (fun xi => xi * xi)).sum) ∧
    Sphere.MINIMUM = 0 ∧
    Sphere.minimizer n = List.replicate n 0 := by
  refine ⟨?_, by norm_num [Sphere.MINIMUM], rfl⟩
  rw [Sphere.f, foldl_sub_sq]
  norm_num

/-- C5: Rosenbrock evaluates to exactly 0 on the all-ones vector of any
length at least 2. -/
theorem rosenbrock_all_ones_zero (n : ℕ) (h : 2 ≤ n) :
    Rosenbrock.f (List.replicate n (1 : ℝ)) = some 0 :=
  rosenbrock_all_ones_eval n (by omega)

/-- Witness instantiating rosenbrock_all_ones_zero at length 2. -/
theorem rosenbrock_all_ones_zero_witness :
    2 ≤ 2 ∧ Rosenbrock.f (List.replicate 2 (1 : ℝ)) = some 0 :=
  ⟨by norm_num, rosenbrock_all_ones_zero 2 (by norm_num)⟩

/-- C6: ChankongHaimes at (0,0) yields objectives (5, -1) and inequality
constraints (-225, 10); at (1,1) it yields objectives (3, 9) and
inequality constraints (-223, 8). -/
theorem chankong_haimes_values :
    ChankongHaimes.f [0, 0] = Except.ok [5, -1] ∧
    ChankongHaimes.inequality_constraints [0, 0] = Except.ok [-225, 10] ∧
    ChankongHaimes.f [1, 1] = Except.ok [3, 9] ∧
    ChankongHaimes.inequality_constraints [1, 1] = Except.ok [-223, 8] := by
  refine ⟨?_, ?_, ?_, ?_⟩ <;>
    norm_num [ChankongHaimes.f, ChankongHaimes.inequality_constraints,
      FixedDimensional.check_input, ChankongHaimes.D]

/-- C7: ChankongHaimes.f raises the dimensionality-mismatch fault exactly
when the input length differs from D = 2 (and raises no such fault on
inputs of length exactly 2). -/
theorem chankong_haimes_dim_mismatch (x : List ℝ) :
    ChankongHaimes.f x = Except.error Fault.dimMismatch ↔ x.length ≠ 2 := by
  rcases x with _ | ⟨a, _ | ⟨b, _ | ⟨c, rest⟩⟩⟩
  · simp [ChankongHaimes.f, FixedDimensional.check_input, ChankongHaimes.D]
  · simp [ChankongHaimes.f, FixedDimensional.check_input, ChankongHaimes.D]
  · simp [ChankongHaimes.f, FixedDimensional.check_input, ChankongHaimes.D]
  · have hlen : (a :: b :: c :: rest).length ≠ ChankongHaimes.D := by
      simp only [List.length_cons, ChankongHaimes.D]
      omega
    simp only [ChankongHaimes.f, FixedDimensional.check_input, if_pos hlen]
    simp [ChankongHaimes.D]

/-- C10: the constraint operations of ChankongHaimes perform no
dimensionality check: equality_constraints returns the empty vector
(NH = 0 entries) for an input of any length; inequality_constraints
computes its NG = 2 entries from the first two coordinates of any input
of length at least 2, and fails with the index-out-of-bounds fault
(which differs from the dimensionality-mismatch fault) on inputs of
length 0 or 1. -/
theorem chankong_haimes_constraints_unchecked :
    (∀ x : List ℝ, ChankongHaimes.equality_constraints x = [] ∧ ChankongHaimes.NH = 0) ∧
    (∀ (x0 x1 : ℝ) (rest : List ℝ),
      ChankongHaimes.inequality_constraints (x0 :: x1 :: rest)
        = Except.ok [x0 ^ 2 + x1 ^ 2 - 225, x0 - 3 * x1 + 10] ∧
      ChankongHaimes.NG = 2) ∧
    ChankongHaimes.inequality_constraints [] = Except.error Fault.indexOutOfBounds ∧
    (∀ a : ℝ, ChankongHaimes.inequality_constraints [a] = Except.error Fault.indexOutOfBounds) ∧
    Fault.indexOutOfBounds ≠ Fault.dimMismatch := by
  refine ⟨fun x => ⟨rfl, rfl⟩, fun x0 x1 rest => ⟨?_, rfl⟩, rfl, fun a => rfl, by decide⟩
  norm_num [ChankongHaimes.inequality_constraints]

/-- Unfolding of in_bounds on a cons cell. -/
lemma in_bounds_cons (B : ℚ × ℚ) (e : F64) (rest : List F64) :
    Bounded.in_bounds B (e :: rest)
      = if (e.lt (F64.num B.1) || (F64.num B.2).lt e) then false
        else Bounded.in_bounds B rest := rfl

/-- NaN is never flagged as out of bounds: both IEEE comparisons against
the bounds are false. -/
lemma nan_not_flagged (B : ℚ × ℚ) :
    (F64.nan.lt (F64.num B.1) || (F64.num B.2).lt F64.nan) = false := rfl

/-- For any element other than NaN, the out-of-bounds flag tested by
in_bounds is false exactly when the element lies in the closed
interval. -/
lemma flag_false_iff (lo hi : ℚ) (e : F64) (h : e ≠ F64.nan) :
    (e.lt (F64.num lo) || (F64.num hi).lt e) = false ↔ F64.inIcc lo hi e := by
  cases e with
  | nan => exact absurd rfl h
  | inf => simp [F64.lt, F64.inIcc]
  | ninf => simp [F64.lt, F64.inIcc]
  | num a => simp [F64.lt, F64.inIcc, not_lt]

/-- The early-exit loop of in_bounds returns true exactly when no
element raises the out-of-bounds flag. -/
lemma in_bounds_all (B : ℚ × ℚ) (x : List F64) :
    Bounded.in_bounds B x = true ↔
      ∀ e ∈ x, (e.lt (F64.num B.1) || (F64.num B.2).lt e) = false := by
  induction x with
  | nil => simp [Bounded.in_bounds]
  | cons e rest ih =>
    by_cases hflag : (e.lt (F64.num B.1) || (F64.num B.2).lt e) = true
    · rw [in_bounds_cons, if_pos hflag]
      refine iff_of_false (by simp) fun hall => ?_
      exact absurd (hall e (List.mem_cons_self e rest)) (by simp [hflag])
    · rw [Bool.not_eq_true] at hflag
      rw [in_bounds_cons, if_neg (by simp [hflag]), ih, List.forall_mem_cons]
      simp [hflag]

/-- C4 counterexample: with the Rastrigin bounds, in_bounds accepts the
one-element vector holding NaN although NaN lies in no closed interval,
so the claimed equivalence fails at this input. -/
theorem in_bounds_nan_counterexample :
    Bounded.in_bounds Rastrigin.BOUNDS [F64.nan] = true ∧
    ¬ F64.inIcc Rastrigin.BOUNDS.1 Rastrigin.BOUNDS.2 F64.nan :=
  ⟨by decide, by simp [F64.inIcc]⟩

/-- C4 (amended): for every bound pair and every input vector free of
NaN coordinates, in_bounds returns true exactly when every coordinate
lies within the closed interval; vectors with a NaN coordinate must be
excluded, as the counterexample shows. -/
theorem in_bounds_iff_in_interval (lo hi : ℚ) (x : List F64)
    (h : F64.nan ∉ x) :
    Bounded.in_bounds (lo, hi) x = true ↔ ∀ e ∈ x, F64.inIcc lo hi e := by
  rw [in_bounds_all]
  exact forall₂_congr fun e he => flag_false_iff lo hi e (fun heq => h (heq ▸ he))

/-- Witness instantiating in_bounds_iff_in_interval on a NaN-free
vector. -/
theorem in_bounds_iff_in_interval_witness :
    F64.nan ∉ [F64.num 1] ∧
    (Bounded.in_bounds (0, 5) [F64.num 1] = true ↔
      ∀ e ∈ [F64.num 1], F64.inIcc 0 5 e) :=
  ⟨by decide, in_bounds_iff_in_interval 0 5 [F64.num 1] (by decide)⟩

/-- C9 counterexample: the vector (6, NaN) contains a NaN coordinate,
yet in_bounds with the Rastrigin bounds returns false: the first
coordinate is flagged as out of bounds before the NaN is reached. -/
theorem in_bounds_nan_vector_rejected :
    F64.nan ∈ [F64.num 6, F64.nan] ∧
    Bounded.in_bounds Rastrigin.BOUNDS [F64.num 6, F64.nan] = false := by
  refine ⟨by simp, ?_⟩
  rw [in_bounds_cons]
  have hflag : ((F64.num 6).lt (F64.num Rastrigin.BOUNDS.1)
      || (F64.num Rastrigin.BOUNDS.2).lt (F64.num 6)) = true := by
    simp only [F64.lt, Bool.or_eq_true, decide_eq_true_eq, Rastrigin.BOUNDS]
    norm_num
  rw [hflag]
  simp

/-- C9 (amended): a NaN coordinate is never flagged as out of bounds by
in_bounds: dropping every NaN coordinate from the input leaves the
result unchanged, and a vector consisting only of NaN coordinates is
accepted, even though NaN lies in no interval. -/
theorem in_bounds_never_flags_nan :
    (∀ (B : ℚ × ℚ) (x : List F64),
      Bounded.in_bounds B x
        = Bounded.in_bounds B (x.filter (fun e => !e.isNan))) ∧
    (∀ (B : ℚ × ℚ) (n : ℕ),
      Bounded.in_bounds B (List.replicate n F64.nan) = true) ∧
    (∀ lo hi : ℚ, ¬ F64.inIcc lo hi F64.nan) := by
  refine ⟨fun B x => ?_, fun B n => ?_, fun lo hi => by simp [F64.inIcc]⟩
  · induction x with
    | nil => rfl
    | cons e rest ih =>
      by_cases hnan : e.isNan = true
      · have he : e = F64.nan := by
          cases e
          · rfl
          all_goals simp [F64.isNan] at hnan
        subst he
        rw [List.filter_cons_of_neg (by simp [F64.isNan])]
        calc Bounded.in_bounds B (F64.nan :: rest)
            = Bounded.in_bounds B rest := by
              simp [in_bounds_cons, nan_not_flagged]
          _ = _ := ih
      · rw [Bool.not_eq_true] at hnan
        rw [List.filter_cons_of_pos (by simp [hnan]), in_bounds_cons, in_bounds_cons, ih]
  · induction n with
    | zero => rfl
    | succ m ih =>
      rw [List.replicate_succ]
      simp [in_bounds_cons, nan_not_flagged, ih]

/-- Stepping in_bounds over a leading finite coordinate that lies within
the bounds. -/
lemma in_bounds_cons_num (B : ℚ × ℚ) (c : ℚ) (rest : List F64)
    (h1 : B.1 ≤ c) (h2 : c ≤ B.2) :
    Bounded.in_bounds B (F64.num c :: rest) = Bounded.in_bounds B rest := by
  rw [in_bounds_cons]
  have hflag : ((F64.num c).lt (F64.num B.1) || (F64.num B.2).lt (F64.num c)) = false := by
    simp only [F64.lt, Bool.or_eq_false_iff, decide_eq_false_iff_not, not_lt]
    exact ⟨h1, h2⟩
  rw [hflag]
  simp

/-- in_bounds accepts every constant vector whose value lies within the
bounds. -/
lemma in_bounds_replicate_num (B : ℚ × ℚ) (c : ℚ) (h1 : B.1 ≤ c) (h2 : c ≤ B.2) :
    ∀ n, Bounded.in_bounds B (List.replicate n (F64.num c)) = true := by
  intro n
  induction n with
  | zero => rfl
  | succ m ih =>
    rw [List.replicate_succ, in_bounds_cons_num B c _ h1 h2]
    exact ih

/-- Proposition that every bounded single-objective function accepts its
own minimizer of length n. -/
def bounded_minimizers_accepted (n : ℕ) : Prop :=
  Bounded.in_bounds Rastrigin.BOUNDS ((Rastrigin.minimizer n).map F64.num) = true ∧
  Bounded.in_bounds Rosenbrock.BOUNDS ((Rosenbrock.minimizer n).map F64.num) = true ∧
  Bounded.in_bounds Ackley.BOUNDS ((Ackley.minimizer n).map F64.num) = true ∧
  Bounded.in_bounds Matyas.BOUNDS ((Matyas.minimizer n).map F64.num) = true ∧
  Bounded.in_bounds Griewank.BOUNDS ((Griewank.minimizer n).map F64.num) = true ∧
  Bounded.in_bounds Ridge.BOUNDS ((Ridge.minimizer n).map F64.num) = true ∧
  Bounded.in_bounds Zakharov.BOUNDS ((Zakharov.minimizer n).map F64.num) = true ∧
  Bounded.in_bounds Salomon.BOUNDS ((Salomon.minimizer n).map F64.num) = true

/-- C8: for every length n at least 1, every coordinate of the minimizer
of every bounded single-objective function lies within that function's
bounds, so in_bounds accepts it; Ridge's leading coordinate -5 sits
exactly on its lower bound -5 and is still accepted. -/
theorem bounded_minimizers_in_bounds (n : ℕ) (h : 1 ≤ n) :
    bounded_minimizers_accepted n := by
  obtain ⟨k, rfl⟩ : ∃ k, n = k + 1 := ⟨n - 1, by omega⟩
  refine ⟨?_, ?_, ?_, ?_, ?_, ?_, ?_, ?_⟩
  · rw [Rastrigin.minimizer, List.map_replicate]
    exact in_bounds_replicate_num _ 0 (by norm_num [Rastrigin.BOUNDS])
      (by norm_num [Rastrigin.BOUNDS]) _
  · rw [Rosenbrock.minimizer, List.map_replicate]
    exact in_bounds_replicate_num _ 1 (by norm_num [Rosenbrock.BOUNDS])
      (by norm_num [Rosenbrock.BOUNDS]) _
  · rw [Ackley.minimizer, List.map_replicate]
    exact in_bounds_replicate_num _ 0 (by norm_num [Ackley.BOUNDS])
      (by norm_num [Ackley.BOUNDS]) _
  · rw [Matyas.minimizer, List.map_replicate]
    exact in_bounds_replicate_num _ 0 (by norm_num [Matyas.BOUNDS])
      (by norm_num [Matyas.BOUNDS]) _
  · rw [Griewank.minimizer, List.map_replicate]
    exact in_bounds_replicate_num _ 0 (by norm_num [Griewank.BOUNDS])
      (by norm_num [Griewank.BOUNDS]) _
  · rw [Ridge.minimizer, List.replicate_succ, List.set_cons_zero, List.map_cons,
      List.map_replicate,
      in_bounds_cons_num Ridge.BOUNDS (-5) _ (by norm_num [Ridge.BOUNDS])
        (by norm_num [Ridge.BOUNDS])]
    exact in_bounds_replicate_num _ 0 (by norm_num [Ridge.BOUNDS])
      (by norm_num [Ridge.BOUNDS]) _
  · rw [Zakharov.minimizer, List.map_replicate]
    exact in_bounds_replicate_num _ 0 (by norm_num [Zakharov.BOUNDS])
      (by norm_num [Zakharov.BOUNDS]) _
  · rw [Salomon.minimizer, List.map_replicate]
    exact in_bounds_replicate_num _ 0 (by norm_num [Salomon.BOUNDS])
      (by norm_num [Salomon.BOUNDS]) _

/-- Witness instantiating bounded_minimizers_in_bounds at length 2. -/
theorem bounded_minimizers_in_bounds_witness :
    1 ≤ 2 ∧ bounded_minimizers_accepted 2 :=
  ⟨by norm_num, bounded_minimizers_in_bounds 2 (by norm_num)⟩

/-- Proposition that the seven always-total N-dimensional formulas
return a value both on the vector x and on the empty vector, that
Rosenbrock and Ridge return a value on the (nonempty) vector x, and that
Rosenbrock and Ridge panic on the empty vector. -/
def ndimensional_totality_spec (x : List ℝ) : Prop :=
  ((Sphere.f x).isSome = true ∧ (Rastrigin.f x).isSome = true ∧
    (Ackley.f x).isSome = true ∧ (Matyas.f x).isSome = true ∧
    (Griewank.f x).isSome = true ∧ (Zakharov.f x).isSome = true ∧
    (Salomon.f x).isSome = true ∧ (Rosenbrock.f x).isSome = true ∧
    (Ridge.f x).isSome = true) ∧
  ((Sphere.f []).isSome = true ∧ (Rastrigin.f []).isSome = true ∧
    (Ackley.f []).isSome = true ∧ (Matyas.f []).isSome = true ∧
    (Griewank.f []).isSome = true ∧ (Zakharov.f []).isSome = true ∧
    (Salomon.f []).isSome = true) ∧
  Rosenbrock.f [] = none ∧ Ridge.f [] = none

/-- C3 counterexample: Rosenbrock.f applied to the empty vector panics
(embedded as none) instead of returning a numeric result, refuting
totality of every N-dimensional formula on vectors of every length. -/
theorem rosenbrock_empty_panics : Rosenbrock.f ([] : List ℝ) = none := rfl

/-- C3 (amended): every N-dimensional evaluation formula except
Rosenbrock and Ridge is total on vectors of every length including the
empty one; Rosenbrock and Ridge are total on every nonempty vector and
both panic on the empty vector. -/
theorem ndimensional_totality (x : List ℝ) (h : x ≠ []) :
    ndimensional_totality_spec x := by
  obtain ⟨y, ys, rfl⟩ := List.exists_cons_of_ne_nil h
  refine ⟨⟨rfl, rfl, rfl, rfl, rfl, rfl, rfl, ?_, rfl⟩,
    ⟨rfl, rfl, rfl, rfl, rfl, rfl, rfl⟩, rfl, rfl⟩
  simp only [Rosenbrock.f, List.length_cons]
  rw [if_neg (by omega)]
  rfl

/-- Witness instantiating ndimensional_totality on the one-element
vector holding 1. -/
theorem ndimensional_totality_witness :
    ([(1 : ℝ)] ≠ ([] : List ℝ)) ∧ ndimensional_totality_spec [(1 : ℝ)] :=
  ⟨by simp, ndimensional_totality [(1 : ℝ)] (by simp)⟩
